import Mathlib

/-!
Verification of `validate_adf.py`, a static checker for parameter passing
across Azure Data Factory pipeline invocations (pipeline-to-pipeline
`ExecutePipeline` activities and trigger-to-pipeline bindings).

The Python program is embedded shallowly:

* JSON scalar values become the inductive type `JValue`; Python `str`
  applied to such a value becomes `pyStr` (strings unchanged, integers in
  decimal, `True` / `False`, `None`).
* Python dicts (which preserve insertion order and have unique keys)
  become association lists `Dict a = List (String x a)`; `k in d`,
  `d[k]` and `d[k] = v` become `dictContains`, `dictFind` and
  `dictInsert`.  `dictInsert` keeps the position of an existing key and
  appends a fresh key at the end, exactly as a Python dict does.
* The resource documents become structures whose optional JSON fields
  (read in the source with `.get(key, default)`) are `Option` fields;
  mandatory fields (read with `[...]` subscription on every path) are
  plain fields.
* Each diagnostic f-string of the checker becomes one constructor of
  `IssueMsg` carrying exactly the data interpolated into that f-string.
* The loader works on the parsed outcome of each directory entry
  (`FileEntry`); filesystem enumeration and JSON decoding themselves are
  outside the embedding, their outcomes (parse failure, parsed document)
  are the input.  Log calls become `LogEvent` values threaded through the
  fold, so the non-fatal diagnostics are visible in the model.

All functions are total, mirroring the fact that the Python code catches
`JSONDecodeError` and `KeyError` at the narrowest scope and otherwise
only uses total dict/list operations on the modelled shapes.
-/

/-- A JSON scalar value as it appears in parameter defaults and supplied
parameter values. -/
inductive JValue where
  | str (s : String)
  | int (n : Int)
  | bool (b : Bool)
  | null
  deriving DecidableEq

/-- Python `str` on a `JValue`: the text form used by the comparison
`str(provided_parameters[param]) == str(details["defaultValue"])`. -/
def pyStr : JValue → String
  | .str s => s
  | .int n => toString n
  | .bool b => if b then "True" else "False"
  | .null => "None"

/-- An insertion-ordered string-keyed mapping, the model of a Python dict. -/
abbrev Dict (α : Type) : Type := List (String × α)

/-- Python `k in d`. -/
def dictContains {α : Type} (d : Dict α) (k : String) : Bool :=
  List.any d (fun p => p.1 == k)

/-- Python `d[k]` (and `d.get(k)`), returning `none` when the key is absent. -/
def dictFind {α : Type} (d : Dict α) (k : String) : Option α :=
  Option.map Prod.snd (List.find? (fun p => p.1 == k) d)

/-- Python `d[k] = v`: replace in place when the key exists, append otherwise. -/
def dictInsert {α : Type} (d : Dict α) (k : String) (v : α) : Dict α :=
  if dictContains d k then List.map (fun p => if p.1 == k then (k, v) else p) d
  else d ++ [(k, v)]

/-- Keys of a dict in insertion order. -/
def dictKeys {α : Type} (d : Dict α) : List String :=
  List.map Prod.fst d

/-- The entry of a declared parameter (`details` in the source): only the
presence and value of `"defaultValue"` is ever inspected. -/
structure ParamDetails where
  defaultValue : Option JValue
  deriving DecidableEq

/-- `activity["typeProperties"]["pipeline"]`. -/
structure PipelineReference where
  referenceName : String
  deriving DecidableEq

/-- `activity["typeProperties"]` of an ExecutePipeline activity: the
pipeline reference is read unconditionally (line 74), the supplied
`parameters` with `.get(..., {})` (line 86). -/
structure TypeProperties where
  pipeline : PipelineReference
  parameters : Option (Dict JValue)
  deriving DecidableEq

/-- An activity of a pipeline; `name` and `type` are read unconditionally. -/
structure Activity where
  name : String
  type : String
  typeProperties : TypeProperties
  deriving DecidableEq

/-- The `properties` object of a pipeline document: both fields are read
with `.get(..., default)`, hence optional. -/
structure PipelineProps where
  parameters : Option (Dict ParamDetails)
  activities : Option (List Activity)
  deriving DecidableEq

/-- `pipeline_reference["pipelineReference"]`. -/
structure TriggerPipelineReference where
  referenceName : String
  deriving DecidableEq

/-- One element of a trigger's `pipelines` list: the reference is read
unconditionally (line 120), `parameters` with `.get(..., {})` (line 121). -/
structure PipelineBinding where
  pipelineReference : TriggerPipelineReference
  parameters : Option (Dict JValue)
  deriving DecidableEq

/-- The `properties` object of a trigger document: `pipelines` is read
with `.get("pipelines", [])`, hence optional. -/
structure TriggerProps where
  pipelines : Option (List PipelineBinding)
  deriving DecidableEq

/-- One constructor per diagnostic f-string of the two checker functions,
carrying exactly the data interpolated into that f-string. -/
inductive IssueMsg where
  | childNotFound (childPipelineName : String)
  | missingRequired (missingParams : List String)
  | redundantDefault (redundantParams : List String)
  | pipelineNotFoundForTrigger (pipelineName : String)
  | missingRequiredForPipeline (pipelineName : String) (missingParams : List String)
  | redundantDefaultForPipeline (pipelineName : String) (redundantParams : List String)
  deriving DecidableEq

/-- An element of the `issues` list built by
`find_missing_and_redundant_params_in_activities`: the dict
`{"activity": ..., "issue": ...}`. -/
structure ActIssue where
  activity : String
  issue : IssueMsg
  deriving DecidableEq

/-- An element of the `issues` list built by
`find_missing_and_redundant_params_in_triggers`: the dict
`{"trigger": ..., "issue": ...}`. -/
structure TrigIssue where
  trigger : String
  issue : IssueMsg
  deriving DecidableEq

/-- Lines 89-92: the `missing_params` comprehension of the activity check. -/
def act_missing_params (child_parameters : Dict ParamDetails)
    (provided_parameters : Dict JValue) : List String :=
  List.map Prod.fst (List.filter
    (fun pd => Option.isNone pd.2.defaultValue && !(dictContains provided_parameters pd.1))
    child_parameters)

/-- Lines 95-99: the `redundant_params` comprehension of the activity check. -/
def act_redundant_params (child_parameters : Dict ParamDetails)
    (provided_parameters : Dict JValue) : List String :=
  List.map Prod.fst (List.filter
    (fun pd =>
      match pd.2.defaultValue, dictFind provided_parameters pd.1 with
      | some dv, some v => pyStr v == pyStr dv
      | _, _ => false)
    child_parameters)

/-- Lines 134-137: the `missing_params` comprehension of the trigger check. -/
def trig_missing_params (pipeline_parameters : Dict ParamDetails)
    (provided_parameters : Dict JValue) : List String :=
  List.map Prod.fst (List.filter
    (fun pd => Option.isNone pd.2.defaultValue && !(dictContains provided_parameters pd.1))
    pipeline_parameters)

/-- Lines 140-144: the `redundant_params` comprehension of the trigger check. -/
def trig_redundant_params (pipeline_parameters : Dict ParamDetails)
    (provided_parameters : Dict JValue) : List String :=
  List.map Prod.fst (List.filter
    (fun pd =>
      match pd.2.defaultValue, dictFind provided_parameters pd.1 with
      | some dv, some v => pyStr v == pyStr dv
      | _, _ => false)
    pipeline_parameters)

/-- Lines 68-71: the `execute_activities` comprehension. -/
def executeActivities (parent_pipeline : PipelineProps) : List Activity :=
  List.filter (fun activity => activity.type == "ExecutePipeline")
    (Option.getD parent_pipeline.activities [])

/-- Lines 73-111: the loop body for one ExecutePipeline activity. -/
def checkExecuteActivity (child_pipelines : Dict PipelineProps)
    (activity : Activity) : List ActIssue :=
  let child_pipeline_name := activity.typeProperties.pipeline.referenceName
  match dictFind child_pipelines child_pipeline_name with
  | none => [⟨activity.name, IssueMsg.childNotFound child_pipeline_name⟩]
  | some child_pipeline =>
    let child_parameters := Option.getD child_pipeline.parameters []
    let provided_parameters := Option.getD activity.typeProperties.parameters []
    let missing := act_missing_params child_parameters provided_parameters
    let redundant := act_redundant_params child_parameters provided_parameters
    (if missing.isEmpty then []
     else [⟨activity.name, IssueMsg.missingRequired missing⟩]) ++
    (if redundant.isEmpty then []
     else [⟨activity.name, IssueMsg.redundantDefault redundant⟩])

/-- Lines 65-113: `find_missing_and_redundant_params_in_activities`. -/
def find_missing_and_redundant_params_in_activities
    (parent_pipeline : PipelineProps)
    (child_pipelines : Dict PipelineProps) : List ActIssue :=
  List.flatMap (executeActivities parent_pipeline) (checkExecuteActivity child_pipelines)

/-- Lines 119-156: the loop body for one pipeline binding of a trigger. -/
def checkTriggerBinding (pipelines : Dict PipelineProps) (trigger_name : String)
    (pipeline_reference : PipelineBinding) : List TrigIssue :=
  let pipeline_name := pipeline_reference.pipelineReference.referenceName
  let provided_parameters := Option.getD pipeline_reference.parameters []
  match dictFind pipelines pipeline_name with
  | none => [⟨trigger_name, IssueMsg.pipelineNotFoundForTrigger pipeline_name⟩]
  | some pipeline =>
    let pipeline_parameters := Option.getD pipeline.parameters []
    let missing := trig_missing_params pipeline_parameters provided_parameters
    let redundant := trig_redundant_params pipeline_parameters provided_parameters
    (if missing.isEmpty then []
     else [⟨trigger_name, IssueMsg.missingRequiredForPipeline pipeline_name missing⟩]) ++
    (if redundant.isEmpty then []
     else [⟨trigger_name, IssueMsg.redundantDefaultForPipeline pipeline_name redundant⟩])

/-- Lines 115-158: `find_missing_and_redundant_params_in_triggers`. -/
def find_missing_and_redundant_params_in_triggers
    (triggers : Dict TriggerProps) (pipelines : Dict PipelineProps) : List TrigIssue :=
  List.flatMap triggers (fun t =>
    List.flatMap (Option.getD t.2.pipelines []) (checkTriggerBinding pipelines t.1))

/-- Line 34: `file.endswith(".json")`, as a computation on the character
list so it evaluates inside the kernel. -/
def endsWithJson (s : String) : Bool :=
  List.isSuffixOf (String.data ".json") (String.data s)

/-- A parsed top-level JSON document as the loader inspects it: the three
keys `"type"`, `"name"` and `"properties"`, each possibly absent.  The
shape of `properties` is opaque to the loader, hence a type parameter. -/
structure RawDoc (Props : Type) where
  type : Option String
  name : Option String
  properties : Option Props
  deriving DecidableEq

/-- The parsed outcome of opening one directory entry: `json.load` either
raises `JSONDecodeError` (with message `errMsg`) or yields a document. -/
inductive RawResult (Props : Type) where
  | parseError (errMsg : String)
  | parsed (doc : RawDoc Props)
  deriving DecidableEq

/-- One directory entry handed to the loader loop: its filename and the
outcome of parsing it. -/
structure FileEntry (Props : Type) where
  fname : String
  content : RawResult Props
  deriving DecidableEq

/-- A log record: `logging.warning` or `logging.error`. -/
inductive LogEvent where
  | warning (msg : String)
  | error (msg : String)
  deriving DecidableEq

/-- Lines 33-46: the body of the loader loop for one directory entry.
State is the `resources` dict together with the log emitted so far.  A
parse failure or a missing `"name"`/`"properties"` key (the `KeyError`
paths; Python evaluates `file_content["properties"]` on the right-hand
side before the subscript `file_content["name"]`, so a document missing
both keys fails on `"properties"`) appends an error record and leaves the
dict unchanged; a type mismatch appends a warning and leaves the dict
unchanged. -/
def load_step {Props : Type} (resource_type expected_type : String)
    (st : Dict Props × List LogEvent) (file : FileEntry Props) :
    Dict Props × List LogEvent :=
  if endsWithJson file.fname then
    match file.content with
    | .parseError e =>
      (st.1, st.2 ++ [LogEvent.error
        ("Error parsing " ++ file.fname ++ " in \x27" ++ resource_type ++ "\x27: " ++ e)])
    | .parsed doc =>
      if Option.getD doc.type expected_type == expected_type then
        match doc.properties, doc.name with
        | some p, some n => (dictInsert st.1 n p, st.2)
        | none, _ =>
          (st.1, st.2 ++ [LogEvent.error
            ("Malformed " ++ resource_type ++ " file " ++ file.fname ++ ": \x27properties\x27")])
        | some _, none =>
          (st.1, st.2 ++ [LogEvent.error
            ("Malformed " ++ resource_type ++ " file " ++ file.fname ++ ": \x27name\x27")])
      else
        (st.1, st.2 ++ [LogEvent.warning
          ("Unexpected non-" ++ resource_type ++ " file in \x27" ++ resource_type ++ "\x27: "
            ++ file.fname)])
  else st

/-- Lines 16-47: `load_resources`, on the (already enumerated and parsed)
entries of an existing directory.  Returns the resource dict and the log. -/
def load_resources {Props : Type} (resource_type expected_type : String)
    (files : List (FileEntry Props)) : Dict Props × List LogEvent :=
  List.foldl (load_step resource_type expected_type) ([], []) files

/-- Whether one directory entry is accepted by the loader, and under which
`(name, properties)` pair: it must be a `.json` file that parses, passes
the type gate and carries both `name` and `properties`. -/
def acceptEntry {Props : Type} (expected_type : String)
    (file : FileEntry Props) : Option (String × Props) :=
  if endsWithJson file.fname then
    match file.content with
    | .parseError _ => none
    | .parsed doc =>
      if Option.getD doc.type expected_type == expected_type then
        match doc.properties, doc.name with
        | some p, some n => some (n, p)
        | _, _ => none
      else none
  else none

/-- The accepted documents of a scan, in enumeration order. -/
def acceptedDocs {Props : Type} (expected_type : String)
    (files : List (FileEntry Props)) : List (String × Props) :=
  List.filterMap (acceptEntry expected_type) files

/-- The value of the last pair carrying key `k`, if any. -/
def lastLookup {α : Type} (l : List (String × α)) (k : String) : Option α :=
  Option.map Prod.snd (List.find? (fun p => p.1 == k) (List.reverse l))

/-- An element of `all_issues` in `main`: subject kind (`"Pipeline"` or
`"Trigger"`), subject name, and the already rendered detail lines. -/
structure TopIssue where
  type : String
  name : String
  issues : List String
  deriving DecidableEq

/-- The lines printed for one subject: `print` of the f-string
`"\n..."` yields an empty line then the header, then one two-space
indented line per detail. -/
def subjectBlock (issue : TopIssue) : List String :=
  "" :: (issue.type ++ " \x27" ++ issue.name ++ "\x27:")
    :: List.map (fun detail => "  " ++ detail) issue.issues

/-- Lines 191-199 of `main`: the printed report, as the list of lines
written to standard output. -/
def report (all_issues : List TopIssue) : List String :=
  if all_issues.isEmpty then ["No validation issues found."]
  else "Validation issues found:" :: List.flatMap all_issues subjectBlock

/-- The missing-parameter rule as the specification words it: the
parameter names `p` of the declared mapping, in declaration order, such
that `p` has no default and `p` is not in the supplied mapping. -/
def spec_missing_rule (declared : Dict ParamDetails)
    (supplied : Dict JValue) : List String :=
  List.filter (fun p =>
    match dictFind declared p with
    | some details => Option.isNone details.defaultValue && !(dictContains supplied p)
    | none => false) (dictKeys declared)

/-- The redundant-parameter rule as the specification words it: the
parameter names `p` of the declared mapping, in declaration order, such
that `p` has a default, `p` is in the supplied mapping, and the string
form of the supplied value equals the string form of the default. -/
def spec_redundant_rule (declared : Dict ParamDetails)
    (supplied : Dict JValue) : List String :=
  List.filter (fun p =>
    match dictFind declared p with
    | some details =>
      match details.defaultValue, dictFind supplied p with
      | some dv, some v => pyStr v == pyStr dv
      | _, _ => false
    | none => false) (dictKeys declared)

/-! Helper lemmas about the dict model. -/

/-- A key that a dict does not contain heads no entry of it. -/
lemma keys_ne_of_contains_false {α : Type} {d : Dict α} {k : String}
    (h : dictContains d k = false) : ∀ pd ∈ d, pd.1 ≠ k := by
  intro pd hmem
  have := List.any_eq_false.mp h pd hmem
  simpa using this

/-- Lookup fails on a key the dict does not contain. -/
lemma dictFind_eq_none_of_contains_false {α : Type} {d : Dict α} {k : String}
    (h : dictContains d k = false) : dictFind d k = none := by
  have hfind : List.find? (fun p => p.1 == k) d = none :=
    List.find?_eq_none.mpr (by
      intro pd hmem
      simpa using keys_ne_of_contains_false h pd hmem)
  simp [dictFind, hfind]

/-- A successful lookup means the dict contains the key. -/
lemma contains_of_dictFind_some {α : Type} {d : Dict α} {k : String} {v : α}
    (h : dictFind d k = some v) : dictContains d k = true := by
  by_contra hc
  rw [dictFind_eq_none_of_contains_false (Bool.eq_false_iff.mpr hc)] at h
  exact Option.noConfusion h

/-- Lookup at the key just consed on. -/
lemma dictFind_cons_self {α : Type} (k : String) (v : α) (d : Dict α) :
    dictFind ((k, v) :: d) k = some v := by
  simp [dictFind, List.find?_cons]

/-- Lookup at another key skips the head. -/
lemma dictFind_cons_ne {α : Type} {k p : String} (v : α) (d : Dict α) (h : p ≠ k) :
    dictFind ((k, v) :: d) p = dictFind d p := by
  simp [dictFind, List.find?_cons, beq_eq_false_iff_ne.mpr (Ne.symm h)]

/-- Membership is unaffected by an entry with a different key spliced in. -/
lemma dictContains_splice {α : Type} (pp1 pp2 : Dict α) {k p : String} (v : α)
    (h : p ≠ k) :
    dictContains (pp1 ++ (k, v) :: pp2) p = dictContains (pp1 ++ pp2) p := by
  simp [dictContains, List.any_append, List.any_cons,
    beq_eq_false_iff_ne.mpr (Ne.symm h)]

/-- Lookup is unaffected by an entry with a different key spliced in. -/
lemma dictFind_splice {α : Type} (pp1 pp2 : Dict α) {k p : String} (v : α)
    (h : p ≠ k) :
    dictFind (pp1 ++ (k, v) :: pp2) p = dictFind (pp1 ++ pp2) p := by
  simp [dictFind, List.find?_append, List.find?_cons,
    beq_eq_false_iff_ne.mpr (Ne.symm h)]

/-! Helper lemmas characterising the two comparison comprehensions. -/

/-- Membership in the activity-check missing list. -/
lemma mem_act_missing_iff {cp : Dict ParamDetails} {pp : Dict JValue} {p : String} :
    p ∈ act_missing_params cp pp ↔
      ∃ d : ParamDetails, (p, d) ∈ cp ∧ d.defaultValue = none ∧
        dictContains pp p = false := by
  unfold act_missing_params
  constructor
  · intro h
    obtain ⟨⟨q, d⟩, hqd, hq⟩ := List.mem_map.mp h
    obtain ⟨hmem, hpred⟩ := List.mem_filter.mp hqd
    subst hq
    simp only [Bool.and_eq_true, Bool.not_eq_true', Option.isNone_iff_eq_none] at hpred
    exact ⟨d, hmem, hpred.1, hpred.2⟩
  · intro ⟨d, hmem, h1, h2⟩
    exact List.mem_map.mpr ⟨(p, d),
      List.mem_filter.mpr ⟨hmem, by simp [h1, h2]⟩, rfl⟩

/-- Membership in the activity-check redundant list. -/
lemma mem_act_redundant_iff {cp : Dict ParamDetails} {pp : Dict JValue} {p : String} :
    p ∈ act_redundant_params cp pp ↔
      ∃ (d : ParamDetails) (dv v : JValue), (p, d) ∈ cp ∧
        d.defaultValue = some dv ∧ dictFind pp p = some v ∧ pyStr v = pyStr dv := by
  unfold act_redundant_params
  constructor
  · intro h
    obtain ⟨⟨q, d⟩, hqd, hq⟩ := List.mem_map.mp h
    obtain ⟨hmem, hpred⟩ := List.mem_filter.mp hqd
    subst hq
    rcases hdv : d.defaultValue with _ | dv
    · rw [hdv] at hpred
      exact absurd hpred (by simp)
    rcases hv : dictFind pp q with _ | v
    · rw [hdv, hv] at hpred
      exact absurd hpred (by simp)
    rw [hdv, hv] at hpred
    exact ⟨d, dv, v, hmem, hdv, rfl, by simpa using hpred⟩
  · intro ⟨d, dv, v, hmem, h1, h2, h3⟩
    exact List.mem_map.mpr ⟨(p, d),
      List.mem_filter.mpr ⟨hmem, by simp [h1, h2, h3]⟩, rfl⟩

/-- The trigger-check comprehensions coincide definitionally with the
activity-check ones (they are the same list comprehensions). -/
lemma trig_missing_eq_act : trig_missing_params = act_missing_params := rfl

/-- Trigger-check redundant list equals the activity-check one. -/
lemma trig_redundant_eq_act : trig_redundant_params = act_redundant_params := rfl

/-- Claim C2: for every pair of a declared parameters mapping and a
supplied parameters mapping, the activity-check procedure and the
trigger-binding-check procedure compute identical missing lists and
identical redundant lists: the comparison rule is applied identically in
both procedures. -/
theorem claim_C2_same_rule_in_both_procedures :
    ∀ (declared : Dict ParamDetails) (supplied : Dict JValue),
      trig_missing_params declared supplied = act_missing_params declared supplied ∧
      trig_redundant_params declared supplied = act_redundant_params declared supplied :=
  fun _ _ => ⟨rfl, rfl⟩

/-- Claim C10: for every resolved call site in either procedure, the
missing list and the redundant list are disjoint: a name in the missing
list never occurs in the redundant list (membership in the missing list
needs the supplied mapping to lack the key, membership in the redundant
list needs a successful lookup of it; in particular no declared default
versus a declared default). -/
theorem claim_C10_missing_redundant_disjoint :
    (∀ (declared : Dict ParamDetails) (supplied : Dict JValue) (p : String),
        p ∈ act_missing_params declared supplied →
        p ∉ act_redundant_params declared supplied) ∧
    (∀ (declared : Dict ParamDetails) (supplied : Dict JValue) (p : String),
        p ∈ trig_missing_params declared supplied →
        p ∉ trig_redundant_params declared supplied) := by
  have key : ∀ (declared : Dict ParamDetails) (supplied : Dict JValue) (p : String),
      p ∈ act_missing_params declared supplied →
      p ∉ act_redundant_params declared supplied := by
    intro declared supplied p hmiss hred
    obtain ⟨d, _, _, hnc⟩ := mem_act_missing_iff.mp hmiss
    obtain ⟨d', dv, v, _, _, hfind, _⟩ := mem_act_redundant_iff.mp hred
    rw [dictFind_eq_none_of_contains_false hnc] at hfind
    exact Option.noConfusion hfind
  exact ⟨key, fun declared supplied p =>
    by rw [trig_missing_eq_act, trig_redundant_eq_act]; exact key declared supplied p⟩

/-- Claim C10 witness: a concrete input where the hypothesis holds. -/
theorem claim_C10_witness :
    "x" ∈ act_missing_params [("x", ⟨none⟩)] [] ∧
    "x" ∉ act_redundant_params [("x", ⟨none⟩)] [] :=
  ⟨by decide, claim_C10_missing_redundant_disjoint.1 [("x", ⟨none⟩)] [] "x" (by decide)⟩

/-- Claim C4: neither checking procedure can fail on absent optional
fields (every embedded function is total); each absent field behaves as
an empty container and contributes no spurious issue.  Conjuncts: a
pipeline without `activities` yields no issues (and behaves as one with
an empty list); an activity without supplied `parameters` behaves as one
supplying the empty mapping; a resolved target pipeline without
`parameters` yields no issues for that call site; a trigger without
`pipelineBindings` (field `pipelines`) contributes no issues to the
trigger scan; a binding without supplied `parameters` behaves as one
supplying the empty mapping. -/
theorem claim_C4_absent_optional_fields_are_empty :
    (∀ (pparams : Option (Dict ParamDetails)) (ps : Dict PipelineProps),
        find_missing_and_redundant_params_in_activities ⟨pparams, none⟩ ps = [] ∧
        find_missing_and_redundant_params_in_activities ⟨pparams, some []⟩ ps = []) ∧
    (∀ (ps : Dict PipelineProps) (nm ty : String) (ref : PipelineReference),
        checkExecuteActivity ps ⟨nm, ty, ⟨ref, none⟩⟩ =
          checkExecuteActivity ps ⟨nm, ty, ⟨ref, some []⟩⟩) ∧
    (∀ (ps : Dict PipelineProps) (a : Activity) (cacts : Option (List Activity)),
        dictFind ps a.typeProperties.pipeline.referenceName = some ⟨none, cacts⟩ →
        checkExecuteActivity ps a = []) ∧
    (∀ (ps : Dict PipelineProps) (ts1 ts2 : Dict TriggerProps) (nm : String),
        find_missing_and_redundant_params_in_triggers (ts1 ++ (nm, ⟨none⟩) :: ts2) ps =
          find_missing_and_redundant_params_in_triggers (ts1 ++ ts2) ps) ∧
    (∀ (ps : Dict PipelineProps) (tn : String) (ref : TriggerPipelineReference),
        checkTriggerBinding ps tn ⟨ref, none⟩ = checkTriggerBinding ps tn ⟨ref, some []⟩) := by
  refine ⟨fun _ _ => ⟨rfl, rfl⟩, fun _ _ _ _ => rfl, ?_, ?_, fun _ _ _ => rfl⟩
  · intro ps a cacts h
    simp [checkExecuteActivity, h, act_missing_params, act_redundant_params]
  · intro ps ts1 ts2 nm
    simp [find_missing_and_redundant_params_in_triggers, List.flatMap_append,
      List.flatMap_cons]

/-- Claim C4 witness: the conjunct with a hypothesis, applied at a dict
binding `"C"` to a pipeline with absent `parameters`, called by activity
`"A"` supplying a value. -/
theorem claim_C4_witness :
    checkExecuteActivity [("C", ⟨none, none⟩)]
      ⟨"A", "ExecutePipeline", ⟨⟨"C"⟩, some [("k", JValue.int 1)]⟩⟩ = [] :=
  claim_C4_absent_optional_fields_are_empty.2.2.1 [("C", ⟨none, none⟩)]
    ⟨"A", "ExecutePipeline", ⟨⟨"C"⟩, some [("k", JValue.int 1)]⟩⟩ none (by decide)

/-- Claim C9: the reporter prints the single clean-run line exactly when
the aggregated issue list is empty; otherwise it prints the issues-found
header followed by one block per subject with one line per issue detail. -/
theorem claim_C9_report_shape :
    (∀ all_issues : List TopIssue,
        report all_issues = ["No validation issues found."] ↔ all_issues = []) ∧
    (∀ all_issues : List TopIssue, all_issues ≠ [] →
        report all_issues =
          "Validation issues found:" :: List.flatMap all_issues subjectBlock) := by
  have hne : ∀ all_issues : List TopIssue, all_issues ≠ [] →
      report all_issues =
        "Validation issues found:" :: List.flatMap all_issues subjectBlock := by
    intro l h
    simp [report, List.isEmpty_iff, h]
  refine ⟨fun l => ⟨fun h => ?_, fun h => by simp [report, h]⟩, hne⟩
  by_cases hl : l = []
  · exact hl
  · rw [hne l hl] at h
    exact absurd (List.head_eq_of_cons_eq h) (by decide)

/-- Claim C9 witness: both directions applied at concrete inputs. -/
theorem claim_C9_witness :
    report [] = ["No validation issues found."] ∧
    report [⟨"Pipeline", "P", ["d1", "d2"]⟩] =
      "Validation issues found:" ::
        List.flatMap [(⟨"Pipeline", "P", ["d1", "d2"]⟩ : TopIssue)] subjectBlock :=
  ⟨(claim_C9_report_shape.1 []).mpr rfl,
   claim_C9_report_shape.2 [⟨"Pipeline", "P", ["d1", "d2"]⟩] (by decide)⟩

/-! Helper lemmas for the invariance of the comparison rule under
splicing an undeclared supplied parameter. -/

/-- The missing comprehension only reads the supplied mapping through
key membership of declared names, so an undeclared spliced entry leaves
it unchanged. -/
lemma act_missing_splice {declared : Dict ParamDetails} {k : String}
    (hk : dictContains declared k = false)
    (pp1 pp2 : Dict JValue) (v : JValue) :
    act_missing_params declared (pp1 ++ (k, v) :: pp2) =
      act_missing_params declared (pp1 ++ pp2) := by
  unfold act_missing_params
  refine congrArg (List.map Prod.fst) (List.filter_congr ?_)
  intro pd hpd
  rw [dictContains_splice pp1 pp2 v (keys_ne_of_contains_false hk pd hpd)]

/-- Likewise for the redundant comprehension, which reads the supplied
mapping only through lookups of declared names. -/
lemma act_redundant_splice {declared : Dict ParamDetails} {k : String}
    (hk : dictContains declared k = false)
    (pp1 pp2 : Dict JValue) (v : JValue) :
    act_redundant_params declared (pp1 ++ (k, v) :: pp2) =
      act_redundant_params declared (pp1 ++ pp2) := by
  unfold act_redundant_params
  refine congrArg (List.map Prod.fst) (List.filter_congr ?_)
  intro pd hpd
  rw [dictFind_splice pp1 pp2 v (keys_ne_of_contains_false hk pd hpd)]

/-- Every name in the missing list is a declared parameter name. -/
lemma act_missing_subset_keys {declared : Dict ParamDetails} {pp : Dict JValue}
    {p : String} (h : p ∈ act_missing_params declared pp) :
    dictContains declared p = true := by
  obtain ⟨d, hmem, _, _⟩ := mem_act_missing_iff.mp h
  exact List.any_eq_true.mpr ⟨(p, d), hmem, by simp⟩

/-- Every name in the redundant list is a declared parameter name. -/
lemma act_redundant_subset_keys {declared : Dict ParamDetails} {pp : Dict JValue}
    {p : String} (h : p ∈ act_redundant_params declared pp) :
    dictContains declared p = true := by
  obtain ⟨d, dv, v, hmem, _, _, _⟩ := mem_act_redundant_iff.mp h
  exact List.any_eq_true.mpr ⟨(p, d), hmem, by simp⟩

/-- Claim C8: supplied parameters whose names are not declared by the
target are silently ignored.  An undeclared name never appears in the
missing or redundant list of either procedure, and splicing an entry
with an undeclared key anywhere into the supplied mapping leaves the
computed lists — and hence the diagnostics of a resolved call site —
unchanged, in both the activity check and the trigger-binding check. -/
theorem claim_C8_unknown_supplied_ignored :
    ∀ k : String,
      (∀ (declared : Dict ParamDetails) (supplied : Dict JValue),
          dictContains declared k = false →
          k ∉ act_missing_params declared supplied ∧
          k ∉ act_redundant_params declared supplied ∧
          k ∉ trig_missing_params declared supplied ∧
          k ∉ trig_redundant_params declared supplied) ∧
      (∀ (declared : Dict ParamDetails) (pp1 pp2 : Dict JValue) (v : JValue),
          dictContains declared k = false →
          act_missing_params declared (pp1 ++ (k, v) :: pp2) =
            act_missing_params declared (pp1 ++ pp2) ∧
          act_redundant_params declared (pp1 ++ (k, v) :: pp2) =
            act_redundant_params declared (pp1 ++ pp2) ∧
          trig_missing_params declared (pp1 ++ (k, v) :: pp2) =
            trig_missing_params declared (pp1 ++ pp2) ∧
          trig_redundant_params declared (pp1 ++ (k, v) :: pp2) =
            trig_redundant_params declared (pp1 ++ pp2)) ∧
      (∀ (ps : Dict PipelineProps) (nm ty : String) (ref : PipelineReference)
          (pp1 pp2 : Dict JValue) (v : JValue) (child : PipelineProps),
          dictFind ps ref.referenceName = some child →
          dictContains (Option.getD child.parameters []) k = false →
          checkExecuteActivity ps ⟨nm, ty, ⟨ref, some (pp1 ++ (k, v) :: pp2)⟩⟩ =
            checkExecuteActivity ps ⟨nm, ty, ⟨ref, some (pp1 ++ pp2)⟩⟩) ∧
      (∀ (ps : Dict PipelineProps) (tn : String) (ref : TriggerPipelineReference)
          (pp1 pp2 : Dict JValue) (v : JValue) (pl : PipelineProps),
          dictFind ps ref.referenceName = some pl →
          dictContains (Option.getD pl.parameters []) k = false →
          checkTriggerBinding ps tn ⟨ref, some (pp1 ++ (k, v) :: pp2)⟩ =
            checkTriggerBinding ps tn ⟨ref, some (pp1 ++ pp2)⟩) := by
  intro k
  refine ⟨?_, ?_, ?_, ?_⟩
  · intro declared supplied hk
    refine ⟨fun h => ?_, fun h => ?_, fun h => ?_, fun h => ?_⟩
    · exact absurd (act_missing_subset_keys h) (by simp [hk])
    · exact absurd (act_redundant_subset_keys h) (by simp [hk])
    · rw [trig_missing_eq_act] at h
      exact absurd (act_missing_subset_keys h) (by simp [hk])
    · rw [trig_redundant_eq_act] at h
      exact absurd (act_redundant_subset_keys h) (by simp [hk])
  · intro declared pp1 pp2 v hk
    exact ⟨act_missing_splice hk pp1 pp2 v, act_redundant_splice hk pp1 pp2 v,
      act_missing_splice hk pp1 pp2 v, act_redundant_splice hk pp1 pp2 v⟩
  · intro ps nm ty ref pp1 pp2 v child hfind hk
    simp only [checkExecuteActivity, hfind]
    rw [show Option.getD (some (pp1 ++ (k, v) :: pp2)) [] = pp1 ++ (k, v) :: pp2 from rfl,
      show Option.getD (some (pp1 ++ pp2)) [] = pp1 ++ pp2 from rfl,
      act_missing_splice hk pp1 pp2 v, act_redundant_splice hk pp1 pp2 v]
  · intro ps tn ref pp1 pp2 v pl hfind hk
    simp only [checkTriggerBinding, hfind]
    rw [show Option.getD (some (pp1 ++ (k, v) :: pp2)) [] = pp1 ++ (k, v) :: pp2 from rfl,
      show Option.getD (some (pp1 ++ pp2)) [] = pp1 ++ pp2 from rfl,
      trig_missing_eq_act, trig_redundant_eq_act,
      act_missing_splice hk pp1 pp2 v, act_redundant_splice hk pp1 pp2 v]

/-- Claim C8 witness: adding the undeclared key `"extra"` to the
supplied mapping of a resolved call leaves the missing list unchanged. -/
theorem claim_C8_witness :
    "extra" ∉ act_missing_params [("x", ⟨none⟩)] [] ∧
    act_missing_params [("x", ⟨none⟩)] ([] ++ ("extra", JValue.int 7) :: []) =
      act_missing_params [("x", ⟨none⟩)] ([] ++ []) :=
  ⟨((claim_C8_unknown_supplied_ignored "extra").1 [("x", ⟨none⟩)] [] (by decide)).1,
   ((claim_C8_unknown_supplied_ignored "extra").2.1 [("x", ⟨none⟩)] [] []
      (JValue.int 7) (by decide)).1⟩

/-- Generic bridge for C1: filtering the entries of a dict with
duplicate-free keys and keeping the keys equals filtering the key list
through a lookup, i.e. an entry comprehension equals the corresponding
name comprehension. -/
lemma filter_entries_eq_filter_keys {α : Type} (f : String → α → Bool) :
    ∀ cp : Dict α, (dictKeys cp).Nodup →
      List.map Prod.fst (List.filter (fun pd => f pd.1 pd.2) cp) =
      List.filter (fun p =>
        match dictFind cp p with
        | some d => f p d
        | none => false) (dictKeys cp) := by
  intro cp
  induction cp with
  | nil => intro _; rfl
  | cons hd tl ih =>
    intro hnd
    obtain ⟨k, v⟩ := hd
    have hnd' : k ∉ dictKeys tl ∧ (dictKeys tl).Nodup := by
      constructor
      · exact (List.nodup_cons.mp hnd).1
      · exact (List.nodup_cons.mp hnd).2
    have htail : ∀ p ∈ dictKeys tl,
        (match dictFind ((k, v) :: tl) p with
         | some d => f p d
         | none => false) =
        (match dictFind tl p with
         | some d => f p d
         | none => false) := by
      intro p hp
      have hne : p ≠ k := fun h => hnd'.1 (h ▸ hp)
      rw [dictFind_cons_ne v tl hne]
    have hkeys : dictKeys ((k, v) :: tl) = k :: dictKeys tl := rfl
    rw [hkeys, List.filter_cons, List.filter_cons]
    rw [List.filter_congr htail, ← ih hnd'.2]
    rw [dictFind_cons_self k v tl]
    by_cases hf : f k v = true
    · simp [hf]
    · simp [Bool.eq_false_iff.mpr hf]

/-- Claim C1: for every resolved call site with a duplicate-free declared
parameters mapping, the computed missing list is exactly the declared
names without a default and absent from the supplied mapping, and the
computed redundant list is exactly the declared names with a default,
present in the supplied mapping, whose supplied string form equals the
default's string form — both in declaration order (the rules
`spec_missing_rule` and `spec_redundant_rule` filter the declaration-order
key list). -/
theorem claim_C1_comparison_rule (declared : Dict ParamDetails)
    (supplied : Dict JValue) (hnd : (dictKeys declared).Nodup) :
    act_missing_params declared supplied = spec_missing_rule declared supplied ∧
    act_redundant_params declared supplied = spec_redundant_rule declared supplied := by
  constructor
  · unfold act_missing_params spec_missing_rule
    rw [filter_entries_eq_filter_keys
      (fun p d => Option.isNone d.defaultValue && !(dictContains supplied p)) declared hnd]
    exact List.filter_congr (fun p _ => by cases dictFind declared p <;> rfl)
  · unfold act_redundant_params spec_redundant_rule
    rw [filter_entries_eq_filter_keys
      (fun p d =>
        match d.defaultValue, dictFind supplied p with
        | some dv, some v => pyStr v == pyStr dv
        | _, _ => false) declared hnd]
    exact List.filter_congr (fun p _ => by cases dictFind declared p <;> rfl)

/-- Claim C1 witness: the scenario with a required `x` and a defaulted
`y` supplied at its default. -/
theorem claim_C1_witness :
    act_missing_params [("x", ⟨none⟩), ("y", ⟨some (JValue.str "foo")⟩)]
        [("y", JValue.str "foo")] =
      spec_missing_rule [("x", ⟨none⟩), ("y", ⟨some (JValue.str "foo")⟩)]
        [("y", JValue.str "foo")] ∧
    act_redundant_params [("x", ⟨none⟩), ("y", ⟨some (JValue.str "foo")⟩)]
        [("y", JValue.str "foo")] =
      spec_redundant_rule [("x", ⟨none⟩), ("y", ⟨some (JValue.str "foo")⟩)]
        [("y", JValue.str "foo")] :=
  claim_C1_comparison_rule [("x", ⟨none⟩), ("y", ⟨some (JValue.str "foo")⟩)]
    [("y", JValue.str "foo")] (by decide)

/-! Helper lemmas for the unresolved-reference behaviour of the
activity check. -/

/-- Every issue an activity produces is keyed by that activity's name. -/
lemma checkExecuteActivity_keyed {ps : Dict PipelineProps} {a : Activity}
    {i : ActIssue} (h : i ∈ checkExecuteActivity ps a) : i.activity = a.name := by
  rcases hfind : dictFind ps a.typeProperties.pipeline.referenceName with _ | child
  · simp only [checkExecuteActivity, hfind, List.mem_singleton] at h
    rw [h]
  · simp only [checkExecuteActivity, hfind, List.mem_append] at h
    rcases h with h | h <;>
      · split at h
        · exact absurd h (List.not_mem_nil i)
        · simp only [List.mem_singleton] at h
          rw [h]

/-- An unresolved reference produces exactly the single not-found issue. -/
lemma checkExecuteActivity_unresolved {ps : Dict PipelineProps} {a : Activity}
    (h : dictFind ps a.typeProperties.pipeline.referenceName = none) :
    checkExecuteActivity ps a =
      [⟨a.name, IssueMsg.childNotFound a.typeProperties.pipeline.referenceName⟩] := by
  simp only [checkExecuteActivity, h]

/-- Filtering distributes over flat-mapping. -/
lemma filter_flatMap_distrib {α β : Type} (l : List α) (f : α → List β) (p : β → Bool) :
    (l.flatMap f).filter p = l.flatMap (fun x => (f x).filter p) := by
  induction l with
  | nil => rfl
  | cons a t ih => simp [List.flatMap_cons, List.filter_append, ih]

/-- Among activities whose name occurs exactly once, the issues filtered
by that name are exactly the issues of that one activity. -/
lemma flatMap_filter_unique_name (ps : Dict PipelineProps) (a : Activity) :
    ∀ L : List Activity, a ∈ L →
      (List.map Activity.name L).count a.name = 1 →
      (L.flatMap (checkExecuteActivity ps)).filter (fun i => i.activity == a.name) =
        (checkExecuteActivity ps a).filter (fun i => i.activity == a.name) := by
  intro L
  induction L with
  | nil => intro hmem; exact absurd hmem (List.not_mem_nil a)
  | cons b t ih =>
    intro hmem hcount
    rw [List.flatMap_cons, List.filter_append]
    by_cases hb : b.name = a.name
    · have hzero : (List.map Activity.name t).count a.name = 0 := by
        rw [List.map_cons, List.count_cons, if_pos (beq_iff_eq.mpr hb)] at hcount
        omega
      have hat : a ∉ t := fun h =>
        absurd (List.count_eq_zero.mp hzero) (by
          simpa using List.mem_map_of_mem Activity.name h)
      have hab : a = b := by
        rcases List.mem_cons.mp hmem with h | h
        · exact h
        · exact absurd h hat
      have htnil : (t.flatMap (checkExecuteActivity ps)).filter
          (fun i => i.activity == a.name) = [] := by
        rw [filter_flatMap_distrib]
        refine List.flatMap_eq_nil_iff.mpr ?_
        intro x hx
        refine List.filter_eq_nil_iff.mpr ?_
        intro i hi
        have hx1 : i.activity = x.name := checkExecuteActivity_keyed hi
        have hx2 : x.name ≠ a.name := fun h =>
          absurd (List.count_eq_zero.mp hzero) (by
            simpa [h] using List.mem_map_of_mem Activity.name hx)
        simp [hx1, hx2]
      rw [htnil, ← hab, List.append_nil]
    · have hfb : (checkExecuteActivity ps b).filter
          (fun i => i.activity == a.name) = [] := by
        refine List.filter_eq_nil_iff.mpr ?_
        intro i hi
        have h1 : i.activity = b.name := checkExecuteActivity_keyed hi
        simp [h1, hb]
      have hmem' : a ∈ t := by
        rcases List.mem_cons.mp hmem with h | h
        · exact absurd (congrArg Activity.name h.symm) hb
        · exact h
      have hcount' : (List.map Activity.name t).count a.name = 1 := by
        rw [List.map_cons, List.count_cons,
          if_neg (by simpa using hb)] at hcount
        omega
      rw [hfb, List.nil_append]
      exact ih hmem' hcount'

/-- Claim C3: if an ExecutePipeline activity of a pipeline references a
target name that is not a key of the pipelines mapping, and that
activity's name occurs once among the pipeline's ExecutePipeline
activities, then the activity check emits exactly one issue keyed by
that activity's name, and it is the unresolved-reference (child not
found) issue — in particular no missing-parameter or redundant-parameter
issue is keyed by it. -/
theorem claim_C3_unresolved_reference (parent_pipeline : PipelineProps)
    (child_pipelines : Dict PipelineProps) (a : Activity)
    (hmem : a ∈ executeActivities parent_pipeline)
    (hone : (List.map Activity.name (executeActivities parent_pipeline)).count a.name = 1)
    (hunres : dictContains child_pipelines a.typeProperties.pipeline.referenceName = false) :
    (find_missing_and_redundant_params_in_activities parent_pipeline
        child_pipelines).filter (fun i => i.activity == a.name) =
      [⟨a.name, IssueMsg.childNotFound a.typeProperties.pipeline.referenceName⟩] := by
  unfold find_missing_and_redundant_params_in_activities
  rw [flatMap_filter_unique_name child_pipelines a (executeActivities parent_pipeline)
    hmem hone]
  rw [checkExecuteActivity_unresolved (dictFind_eq_none_of_contains_false hunres)]
  simp

/-- Claim C3 witness: pipeline with a single ExecutePipeline activity
`CallGhost` referencing the unknown pipeline `Ghost`. -/
theorem claim_C3_witness :
    (find_missing_and_redundant_params_in_activities
        ⟨none, some [⟨"CallGhost", "ExecutePipeline", ⟨⟨"Ghost"⟩, none⟩⟩]⟩ []).filter
      (fun i => i.activity == "CallGhost") =
      [⟨"CallGhost", IssueMsg.childNotFound "Ghost"⟩] :=
  claim_C3_unresolved_reference
    ⟨none, some [⟨"CallGhost", "ExecutePipeline", ⟨⟨"Ghost"⟩, none⟩⟩]⟩ []
    ⟨"CallGhost", "ExecutePipeline", ⟨⟨"Ghost"⟩, none⟩⟩
    (by decide) (by decide) (by decide)

/-- Claim C5: a parsed, well-formed (name and properties present) `.json`
document is indexed if and only if its type field is absent or equals
the expected discriminant: when the type gate passes the loader step
inserts the document into the result dict with no log record, and when
the declared type differs it leaves the result dict unchanged — the
document is never added — and records the mismatch warning. -/
theorem claim_C5_type_gate {Props : Type}
    (resource_type expected_type fname : String)
    (st : Dict Props × List LogEvent) (doc : RawDoc Props) (n : String) (p : Props)
    (hjson : endsWithJson fname = true)
    (hname : doc.name = some n) (hprops : doc.properties = some p) :
    ((doc.type = none ∨ doc.type = some expected_type) →
      load_step resource_type expected_type st ⟨fname, RawResult.parsed doc⟩ =
        (dictInsert st.1 n p, st.2)) ∧
    (∀ t, doc.type = some t → t ≠ expected_type →
      load_step resource_type expected_type st ⟨fname, RawResult.parsed doc⟩ =
        (st.1, st.2 ++ [LogEvent.warning
          ("Unexpected non-" ++ resource_type ++ " file in \x27" ++ resource_type
            ++ "\x27: " ++ fname)])) := by
  constructor
  · intro hty
    rcases hty with hty | hty <;>
      simp [load_step, hjson, hname, hprops, hty]
  · intro t hty hne
    simp [load_step, hjson, hname, hprops, hty, hne]

/-- Claim C5 witness: a document with no type field is indexed; one with
a mismatched type is skipped with a warning. -/
theorem claim_C5_witness :
    load_step "pipeline" "ET" (([], []) : Dict Nat × List LogEvent)
        ⟨"a.json", RawResult.parsed ⟨none, some "A", some 5⟩⟩ =
      (dictInsert [] "A" 5, []) ∧
    load_step "pipeline" "ET" (([], []) : Dict Nat × List LogEvent)
        ⟨"b.json", RawResult.parsed ⟨some "Other", some "B", some 6⟩⟩ =
      ([], [] ++ [LogEvent.warning
        ("Unexpected non-" ++ "pipeline" ++ " file in \x27" ++ "pipeline"
          ++ "\x27: " ++ "b.json")]) :=
  ⟨(claim_C5_type_gate "pipeline" "ET" "a.json" ([], [])
      ⟨none, some "A", some 5⟩ "A" 5 (by decide) rfl rfl).1 (Or.inl rfl),
   (claim_C5_type_gate "pipeline" "ET" "b.json" ([], [])
      ⟨some "Other", some "B", some 6⟩ "B" 6 (by decide) rfl rfl).2
     "Other" rfl (by decide)⟩

/-! Helper lemmas about the loader fold. -/

/-- A bad directory entry: a `.json` file that fails to parse, or parses
but — passing the type gate — lacks the `name` or the `properties` key. -/
def badEntry {Props : Type} (expected_type : String) (file : FileEntry Props) : Prop :=
  endsWithJson file.fname = true ∧
    ((∃ e, file.content = RawResult.parseError e) ∨
     (∃ doc, file.content = RawResult.parsed doc ∧
       (Option.getD doc.type expected_type == expected_type) = true ∧
       (doc.name = none ∨ doc.properties = none)))

/-- The result-dict component of a loader step depends only on the
result-dict component of the state. -/
lemma load_step_fst_congr {Props : Type} (rt et : String)
    {st st' : Dict Props × List LogEvent} (h : st.1 = st'.1)
    (file : FileEntry Props) :
    (load_step rt et st file).1 = (load_step rt et st' file).1 := by
  obtain ⟨fn, c⟩ := file
  by_cases hj : endsWithJson fn = true
  · rcases c with e | doc
    · simp [load_step, hj, h]
    · by_cases hty : (Option.getD doc.type et == et) = true
      · rcases hp : doc.properties with _ | p
        · simp [load_step, hj, hty, hp, h]
        · rcases hn : doc.name with _ | n
          · simp [load_step, hj, hty, hp, hn, h]
          · simp [load_step, hj, hty, hp, hn, h]
      · simp [load_step, hj, hty, h]
  · simp [load_step, hj, h]

/-- Hence the result dict of the whole fold depends only on the starting
result dict. -/
lemma load_foldl_fst_congr {Props : Type} (rt et : String) :
    ∀ (files : List (FileEntry Props)) (st st' : Dict Props × List LogEvent),
      st.1 = st'.1 →
      (List.foldl (load_step rt et) st files).1 =
        (List.foldl (load_step rt et) st' files).1 := by
  intro files
  induction files with
  | nil => intro st st' h; exact h
  | cons f rest ih =>
    intro st st' h
    exact ih (load_step rt et st f) (load_step rt et st' f)
      (load_step_fst_congr rt et h f)

/-- A loader step never removes log records: it appends zero or one. -/
lemma load_step_snd_ext {Props : Type} (rt et : String)
    (st : Dict Props × List LogEvent) (file : FileEntry Props) :
    ∃ u, (load_step rt et st file).2 = st.2 ++ u := by
  obtain ⟨fn, c⟩ := file
  by_cases hj : endsWithJson fn = true
  · rcases c with e | doc
    · exact ⟨[LogEvent.error ("Error parsing " ++ fn ++ " in \x27" ++ rt ++ "\x27: " ++ e)],
        by simp [load_step, hj]⟩
    · by_cases hty : (Option.getD doc.type et == et) = true
      · rcases hp : doc.properties with _ | p
        · exact ⟨[LogEvent.error ("Malformed " ++ rt ++ " file " ++ fn ++ ": \x27properties\x27")],
            by simp [load_step, hj, hty, hp]⟩
        · rcases hn : doc.name with _ | n
          · exact ⟨[LogEvent.error ("Malformed " ++ rt ++ " file " ++ fn ++ ": \x27name\x27")],
              by simp [load_step, hj, hty, hp, hn]⟩
          · exact ⟨[], by simp [load_step, hj, hty, hp, hn]⟩
      · exact ⟨[LogEvent.warning ("Unexpected non-" ++ rt ++ " file in \x27" ++ rt ++ "\x27: "
            ++ fn)], by simp [load_step, hj, hty]⟩
  · exact ⟨[], by simp [load_step, hj]⟩

/-- The fold only extends the log. -/
lemma load_foldl_snd_ext {Props : Type} (rt et : String) :
    ∀ (files : List (FileEntry Props)) (st : Dict Props × List LogEvent),
      ∃ u, (List.foldl (load_step rt et) st files).2 = st.2 ++ u := by
  intro files
  induction files with
  | nil => intro st; exact ⟨[], by simp⟩
  | cons f rest ih =>
    intro st
    obtain ⟨u1, h1⟩ := load_step_snd_ext rt et st f
    obtain ⟨u2, h2⟩ := ih (load_step rt et st f)
    exact ⟨u1 ++ u2, by rw [List.foldl_cons, h2, h1, List.append_assoc]⟩

/-- A bad entry leaves the result dict unchanged. -/
lemma load_step_fst_bad {Props : Type} {et : String} (rt : String)
    {file : FileEntry Props} (hbad : badEntry et file)
    (st : Dict Props × List LogEvent) :
    (load_step rt et st file).1 = st.1 := by
  obtain ⟨hjson, hbad⟩ := hbad
  rcases hbad with ⟨e, hc⟩ | ⟨doc, hc, hty, hnp⟩
  · simp [load_step, hjson, hc]
  · rcases hnp with hn | hpn
    · rcases hq : doc.properties with _ | p
      · simp [load_step, hjson, hc, hty, hq]
      · simp [load_step, hjson, hc, hty, hq, hn]
    · simp [load_step, hjson, hc, hty, hpn]

/-- A bad entry appends exactly one error record to the log. -/
lemma load_step_snd_bad {Props : Type} {et : String} (rt : String)
    {file : FileEntry Props} (hbad : badEntry et file)
    (st : Dict Props × List LogEvent) :
    ∃ m, (load_step rt et st file).2 = st.2 ++ [LogEvent.error m] := by
  obtain ⟨hjson, hbad⟩ := hbad
  rcases hbad with ⟨e, hc⟩ | ⟨doc, hc, hty, hnp⟩
  · exact ⟨"Error parsing " ++ file.fname ++ " in \x27" ++ rt ++ "\x27: " ++ e,
      by simp [load_step, hjson, hc]⟩
  · rcases hnp with hn | hpn
    · rcases hq : doc.properties with _ | p
      · exact ⟨"Malformed " ++ rt ++ " file " ++ file.fname ++ ": \x27properties\x27",
          by simp [load_step, hjson, hc, hty, hq]⟩
      · exact ⟨"Malformed " ++ rt ++ " file " ++ file.fname ++ ": \x27name\x27",
          by simp [load_step, hjson, hc, hty, hq, hn]⟩
    · exact ⟨"Malformed " ++ rt ++ " file " ++ file.fname ++ ": \x27properties\x27",
        by simp [load_step, hjson, hc, hty, hpn]⟩

/-- Claim C6: one bad file — a parse failure, or a document lacking
`name` or `properties` — never aborts the scan: the loader returns the
same result mapping as the scan without that file (so every other
well-formed file is still loaded) and records a non-fatal error
diagnostic for it. -/
theorem claim_C6_bad_file_is_skipped {Props : Type}
    (resource_type expected_type : String)
    (l1 l2 : List (FileEntry Props)) (b : FileEntry Props)
    (hbad : badEntry expected_type b) :
    (load_resources resource_type expected_type (l1 ++ b :: l2)).1 =
      (load_resources resource_type expected_type (l1 ++ l2)).1 ∧
    ∃ m, LogEvent.error m ∈
      (load_resources resource_type expected_type (l1 ++ b :: l2)).2 := by
  unfold load_resources
  rw [List.foldl_append, List.foldl_append, List.foldl_cons]
  constructor
  · exact load_foldl_fst_congr resource_type expected_type l2 _ _
      (load_step_fst_bad resource_type hbad _)
  · obtain ⟨m, hm⟩ := load_step_snd_bad resource_type hbad
      (List.foldl (load_step resource_type expected_type) ([], []) l1)
    obtain ⟨u, hu⟩ := load_foldl_snd_ext resource_type expected_type l2
      (load_step resource_type expected_type
        (List.foldl (load_step resource_type expected_type) ([], []) l1) b)
    refine ⟨m, ?_⟩
    rw [hu, hm]
    simp

/-- Claim C6 witness: a parse failure between two good files leaves both
good files in the result and logs an error. -/
theorem claim_C6_witness :
    (load_resources "pipeline" "ET"
        [(⟨"a.json", RawResult.parsed ⟨none, some "A", some 1⟩⟩ : FileEntry Nat),
         ⟨"bad.json", RawResult.parseError "boom"⟩,
         ⟨"c.json", RawResult.parsed ⟨none, some "C", some 3⟩⟩]).1 =
      (load_resources "pipeline" "ET"
        [(⟨"a.json", RawResult.parsed ⟨none, some "A", some 1⟩⟩ : FileEntry Nat),
         ⟨"c.json", RawResult.parsed ⟨none, some "C", some 3⟩⟩]).1 ∧
    ∃ m, LogEvent.error m ∈
      (load_resources "pipeline" "ET"
        [(⟨"a.json", RawResult.parsed ⟨none, some "A", some 1⟩⟩ : FileEntry Nat),
         ⟨"bad.json", RawResult.parseError "boom"⟩,
         ⟨"c.json", RawResult.parsed ⟨none, some "C", some 3⟩⟩]).2 :=
  claim_C6_bad_file_is_skipped "pipeline" "ET"
    [⟨"a.json", RawResult.parsed ⟨none, some "A", some 1⟩⟩]
    [⟨"c.json", RawResult.parsed ⟨none, some "C", some 3⟩⟩]
    ⟨"bad.json", RawResult.parseError "boom"⟩
    ⟨by decide, Or.inl ⟨"boom", rfl⟩⟩

/-! Helper lemmas for the last-wins overwrite behaviour of the loader. -/

/-- Replacing every entry keyed `n` in place does not disturb lookups of
other keys. -/
lemma dictFind_map_replace_ne {α : Type} (n : String) (v : α) {k : String} (hk : k ≠ n) :
    ∀ d : Dict α,
      dictFind (List.map (fun p => if p.1 == n then (n, v) else p) d) k = dictFind d k := by
  intro d
  induction d with
  | nil => rfl
  | cons hd tl ih =>
    obtain ⟨q, w⟩ := hd
    rw [List.map_cons]
    by_cases hq : (q == n) = true
    · have hqn : q = n := beq_iff_eq.mp hq
      subst hqn
      rw [show (if ((q, w).1 == q) = true then (q, v) else (q, w)) = (q, v) from by simp]
      rw [dictFind_cons_ne v _ hk, dictFind_cons_ne w _ hk, ih]
    · rw [show (if ((q, w).1 == n) = true then (n, v) else (q, w)) = (q, w) from by
        simp only [if_neg hq]]
      by_cases hkq : k = q
      · subst hkq
        simp [dictFind, List.find?_cons]
      · rw [dictFind_cons_ne w _ hkq, dictFind_cons_ne w tl hkq, ih]

/-- Replacing every entry keyed `n` in place makes the lookup of a
contained `n` yield the new value. -/
lemma dictFind_map_replace_self {α : Type} (n : String) (v : α) :
    ∀ d : Dict α, dictContains d n = true →
      dictFind (List.map (fun p => if p.1 == n then (n, v) else p) d) n = some v := by
  intro d
  induction d with
  | nil => intro h; exact absurd h (by simp [dictContains])
  | cons hd tl ih =>
    intro h
    obtain ⟨q, w⟩ := hd
    rw [List.map_cons]
    by_cases hq : (q == n) = true
    · rw [show (if ((q, w).1 == n) = true then (n, v) else (q, w)) = (n, v) from by
        simp only [if_pos hq]]
      simp [dictFind, List.find?_cons]
    · rw [show (if ((q, w).1 == n) = true then (n, v) else (q, w)) = (q, w) from by
        simp only [if_neg hq]]
      have hqn : q ≠ n := by simpa using hq
      rw [dictFind_cons_ne w _ (Ne.symm hqn)]
      refine ih ?_
      have hin : (q == n) = true ∨ List.any tl (fun p => p.1 == n) = true := by
        simpa [dictContains] using h
      rcases hin with h1 | h1
      · exact absurd h1 hq
      · exact h1

/-- Lookup after a Python dict assignment: the assigned key now maps to
the assigned value, all other keys are untouched. -/
lemma dictFind_insert {α : Type} (d : Dict α) (n : String) (v : α) (k : String) :
    dictFind (dictInsert d n v) k = if k = n then some v else dictFind d k := by
  unfold dictInsert
  by_cases hc : dictContains d n = true
  · rw [if_pos hc]
    by_cases hk : k = n
    · subst hk
      rw [dictFind_map_replace_self _ v d hc, if_pos rfl]
    · rw [dictFind_map_replace_ne n v hk d, if_neg hk]
  · rw [if_neg hc]
    have hcf : dictContains d n = false := Bool.eq_false_iff.mpr hc
    by_cases hk : k = n
    · subst hk
      unfold dictFind
      rw [List.find?_append]
      have hnone : List.find? (fun p => p.1 == k) d = none := by
        have hdn := dictFind_eq_none_of_contains_false hcf
        unfold dictFind at hdn
        exact Option.map_eq_none'.mp hdn
      simp [hnone, List.find?_cons]
    · unfold dictFind
      rw [List.find?_append]
      have h1 : (n == k) = false := beq_eq_false_iff_ne.mpr (fun h => hk h.symm)
      rcases hd : List.find? (fun p => p.1 == k) d with _ | x
      · simp [hd, List.find?_cons, h1, hk]
      · simp [hd, hk]

/-- The result dict of the fold is the fold of Python dict assignments
over the accepted `(name, properties)` pairs. -/
lemma load_foldl_fst_eq_insert_fold {Props : Type} (rt et : String) :
    ∀ (files : List (FileEntry Props)) (st : Dict Props × List LogEvent),
      (List.foldl (load_step rt et) st files).1 =
        List.foldl (fun r np => dictInsert r np.1 np.2) st.1 (acceptedDocs et files) := by
  intro files
  induction files with
  | nil => intro st; rfl
  | cons f rest ih =>
    intro st
    rw [List.foldl_cons, ih]
    obtain ⟨fn, c⟩ := f
    by_cases hj : endsWithJson fn = true
    · rcases c with e | doc
      · simp [load_step, acceptedDocs, acceptEntry, List.filterMap_cons, hj]
      · by_cases hty : (Option.getD doc.type et == et) = true
        · rcases hp : doc.properties with _ | p
          · simp [load_step, acceptedDocs, acceptEntry, List.filterMap_cons, hj, hty, hp]
          · rcases hn : doc.name with _ | n
            · simp [load_step, acceptedDocs, acceptEntry, List.filterMap_cons,
                hj, hty, hp, hn]
            · simp [load_step, acceptedDocs, acceptEntry, List.filterMap_cons,
                hj, hty, hp, hn]
        · simp [load_step, acceptedDocs, acceptEntry, List.filterMap_cons, hj, hty]
    · simp [load_step, acceptedDocs, acceptEntry, List.filterMap_cons, hj]

/-- Splitting the last binding off `lastLookup`. -/
lemma lastLookup_cons {α : Type} (np : String × α) (l : List (String × α)) (k : String) :
    lastLookup (np :: l) k =
      match lastLookup l k with
      | some v => some v
      | none => if np.1 == k then some np.2 else none := by
  unfold lastLookup
  rw [List.reverse_cons, List.find?_append]
  rcases h : List.find? (fun p => p.1 == k) l.reverse with _ | x
  · rcases hnp : (np.1 == k) with _ | _
    · simp [h, List.find?_cons, hnp, beq_eq_false_iff_ne.mp hnp]
    · simp [h, List.find?_cons, hnp, beq_iff_eq.mp hnp]
  · simp [h]

/-- A fold of Python dict assignments looks up to the last written value,
falling back to the initial dict. -/
lemma foldl_insert_find {α : Type} (k : String) :
    ∀ (l : List (String × α)) (r : Dict α),
      dictFind (List.foldl (fun r np => dictInsert r np.1 np.2) r l) k =
        match lastLookup l k with
        | some v => some v
        | none => dictFind r k := by
  intro l
  induction l with
  | nil => intro r; simp [lastLookup]
  | cons np l ih =>
    intro r
    rw [List.foldl_cons, ih, lastLookup_cons, dictFind_insert]
    rcases h : lastLookup l k with _ | v
    · rcases hnp : (np.1 == k) with _ | _
      · simp [if_neg (fun hh : k = np.1 => by simp [hh] at hnp)]
      · simp [if_pos ((beq_iff_eq.mp hnp).symm)]
    · simp

/-- Claim C7: the loader's result mapping binds every name to the
properties of the last accepted document carrying that name in
enumeration order — later documents silently overwrite earlier ones, and
a uniquely named accepted document is present under its own name. -/
theorem claim_C7_last_document_wins {Props : Type}
    (resource_type expected_type : String)
    (files : List (FileEntry Props)) (k : String) :
    dictFind (load_resources resource_type expected_type files).1 k =
      lastLookup (acceptedDocs expected_type files) k := by
  unfold load_resources
  rw [load_foldl_fst_eq_insert_fold, foldl_insert_find]
  rcases h : lastLookup (acceptedDocs expected_type files) k with _ | v
  · simp [dictFind]
  · simp
